import Mathlib

/-!
Verification of the perp-dex trading bot core against its specification.

The repository's trading engine (`trading_bot.py`), the Lighter and GRVT
venue adapters (`exchanges/lighter.py`, `exchanges/grvt.py`) and the custom
Lighter order-book websocket maintainer (`exchanges/lighter_custom_websocket.py`)
are shallowly embedded below.  Decimal prices and sizes are modelled as exact
rationals; Python dicts keyed by price are modelled as association lists with
pairwise-distinct keys; the stateful methods become explicit state-passing
functions.  Definitions carry the names of the source functions they embed
wherever Lean allows it.
-/

namespace PerpDex

/-! ## Trading engine: `TradingBot._handle_order_result`, AwaitingFill-timeout path -/

/-- Embeds `should_wait` (trading_bot.py lines 269-274): the local predicate the
engine consults after the 10s fill wait times out.  `buy` waits while the fresh
canonical maker price is at or below the resting order's price; `sell` waits
while it is at or above; any other direction string yields `false`. -/
def should_wait (direction : String) (newOrderPrice orderResultPrice : ℚ) : Bool :=
  if direction = "buy" then decide (newOrderPrice ≤ orderResultPrice)
  else if direction = "sell" then decide (newOrderPrice ≥ orderResultPrice)
  else false

/-- Embeds the guard of the re-wait loop (trading_bot.py lines 282-285):
`while should_wait(direction, new_order_price, order_result.price) and
current_order_status == "OPEN"`. -/
def awaiting_fill_guard (direction : String) (newOrderPrice orderResultPrice : ℚ)
    (status : String) : Bool :=
  should_wait direction newOrderPrice orderResultPrice && decide (status = "OPEN")

/-- The claim's `stale` predicate, written from the spec's words:
`stale(direction, p_new, p_old) := p_new ≤ p_old` if buy else `p_new ≥ p_old`.
Kept separate from the source embedding so that the two can be compared. -/
def staleSpec (direction : String) (pNew pOld : ℚ) : Bool :=
  if direction = "buy" then decide (pNew ≤ pOld) else decide (pNew ≥ pOld)

/-! ## Trading engine: `TradingBot._handle_order_result`, partial-fill close -/

/-- Embeds the close order placed after cancelling a stale open order
(trading_bot.py lines 333-356).  Returns `some (size, price)` of the single
close order submitted when the recorded filled amount is positive, and `none`
when no close order is placed.  In boost mode the engine calls
`place_close_order(contract_id, order_filled_amount, filled_price, close_side)`
directly; otherwise the price is `filled_price * (1 ± take_profit/100)` by
close side. -/
def partial_fill_close (boostMode : Bool) (closeSide : String)
    (takeProfit filledPrice orderFilledAmount : ℚ) : Option (ℚ × ℚ) :=
  if orderFilledAmount > 0 then
    if boostMode then
      some (orderFilledAmount, filledPrice)
    else
      let closePrice :=
        if closeSide = "sell" then filledPrice * (1 + takeProfit / 100)
        else filledPrice * (1 - takeProfit / 100)
      some (orderFilledAmount, closePrice)
  else none

/-! ## Trading engine: `TradingBot._calculate_wait_time` -/

/-- Embeds the `cool_down_time` selection of `_calculate_wait_time`
(trading_bot.py lines 175-182), reached only when the active close count is
below `max_orders`.  `n` is `len(self.active_close_orders)`, `m` is
`self.config.max_orders`. -/
def cool_down_time (n m : ℕ) (waitTime : ℚ) : ℚ :=
  if (n : ℚ) / (m : ℚ) ≥ 2 / 3 then 2 * waitTime
  else if (n : ℚ) / (m : ℚ) ≥ 1 / 3 then waitTime
  else if (n : ℚ) / (m : ℚ) ≥ 1 / 6 then waitTime / 2
  else waitTime / 4

/-- Embeds `TradingBot._calculate_wait_time` (trading_bot.py lines 163-191) as a
state-passing function.  Inputs: `n` = current active close count, `last` =
`self.last_close_orders`, `m` = `max_orders`, `waitTime` = `config.wait_time`,
`lastOpen` = `self.last_open_order_time`, `now` = the clock reading (the two
`time.time()` calls of the source are modelled as one instant).  Output:
(returned wait, new `last_close_orders`, new `last_open_order_time`). -/
def calculate_wait_time (n last m : ℕ) (waitTime lastOpen now : ℚ) : ℚ × ℕ × ℚ :=
  if n < last then (0, n, lastOpen)
  else if m ≤ n then (1, n, lastOpen)
  else
    let cd := cool_down_time n m waitTime
    let lastOpen2 := if lastOpen = 0 ∧ 0 < n then now else lastOpen
    if now - lastOpen2 > cd then (0, n, lastOpen2) else (1, n, lastOpen2)

/-! ## Trading engine: `TradingBot._log_status_periodically`, mismatch check -/

/-- Embeds the mismatch predicate of `_log_status_periodically`
(trading_bot.py line 401): `abs(position_amt - active_close_amount) >
2 * quantity`, where `position_amt` is exactly the decimal returned by the
adapter's `get_account_positions` (signed for Lighter, absolute for GRVT). -/
def position_mismatch (positionAmt activeCloseAmount quantity : ℚ) : Bool :=
  decide (|positionAmt - activeCloseAmount| > 2 * quantity)

/-- Embeds the fragments of the mismatch `error_message` built at
trading_bot.py lines 402-408, in concatenation order. -/
def mismatch_message_parts (exch tick : String) (pos amt : ℚ) (cnt : ℕ) :
    List String :=
  ["\n\nERROR: [" ++ exch ++ "_" ++ tick ++ "] ",
   "Position mismatch detected\n",
   "###### ERROR ###### ERROR ###### ERROR ###### ERROR #####\n",
   "Please manually rebalance your position and take-profit orders\n",
   "请手动平衡当前仓位和正在关闭的仓位\n",
   "current position: " ++ toString pos ++ " | active closing amount: " ++
     toString amt ++ " | " ++ "Order quantity: " ++ toString cnt ++ "\n",
   "###### ERROR ###### ERROR ###### ERROR ###### ERROR #####\n"]

/-- The full mismatch notification text. -/
def mismatch_message (exch tick : String) (pos amt : ℚ) (cnt : ℕ) : String :=
  String.join (mismatch_message_parts exch tick pos amt cnt)

/-- Embeds the mismatch branch of `_log_status_periodically`
(trading_bot.py lines 388-420): from the position returned by the adapter, the
active close order sizes and the configured quantity, returns
(`mismatch_detected`, new `shutdown_requested`, emitted notification). -/
def log_status_check (positionAmt : ℚ) (closeSizes : List ℚ) (quantity : ℚ)
    (shutdownRequested : Bool) (exch tick : String) :
    Bool × Bool × Option String :=
  let activeCloseAmount := closeSizes.sum
  if position_mismatch positionAmt activeCloseAmount quantity then
    (true, true,
     some (mismatch_message exch tick positionAmt activeCloseAmount closeSizes.length))
  else (false, shutdownRequested, none)

/-- Embeds `LighterClient.get_account_positions` (lighter.py lines 504-514):
the signed `Decimal(position.position)` of the matching market is returned
unchanged. -/
def lighter_get_account_positions (rawPosition : ℚ) : ℚ := rawPosition

/-- Embeds `GrvtClient.get_account_positions` (grvt.py lines 499-508):
`abs(Decimal(position.get('size', 0)))`. -/
def grvt_get_account_positions (rawSize : ℚ) : ℚ := |rawSize|

/-! ## Venue adapters: `place_close_order` price handling -/

/-- Modelled from the spec: `round_to_tick` lives in the repository's base
adapter class (`exchanges/base.py`), which is not part of the provided sources;
the spec says only "Round to tick", so it is modelled as rounding the price to
the nearest multiple of the tick size. -/
def round_to_tick (price tickSize : ℚ) : ℚ :=
  (round (price / tickSize) : ℚ) * tickSize

/-- Embeds the price computation of `GrvtClient.place_close_order`
(grvt.py lines 374-383): adjust the requested price against the current BBO to
guarantee maker placement, then round to the tick size. -/
def grvt_close_order_price (side : String) (price bestBid bestAsk tickSize : ℚ) : ℚ :=
  let adjusted :=
    if side = "sell" ∧ price ≤ bestBid then bestBid + tickSize
    else if side = "buy" ∧ price ≥ bestAsk then bestAsk - tickSize
    else price
  round_to_tick adjusted tickSize

/-- Embeds the price handling of `LighterClient.place_close_order`
(lighter.py lines 344-362): the requested price is handed to
`place_limit_order` unchanged — no BBO comparison, no maker adjustment and no
tick rounding happen on this path. -/
def lighter_close_order_price (side : String) (price bestBid bestAsk tickSize : ℚ) : ℚ :=
  price

/-- The maker adjustment exactly as the claim words it (spec §4.1): if sell and
`price ≤ best_bid`, use `best_bid + tick_size`; if buy and `price ≥ best_ask`,
use `best_ask − tick_size`; else `price`.  Kept separate from the adapter
embeddings so that each adapter can be compared against it. -/
def makerAdjustSpec (side : String) (price bestBid bestAsk tickSize : ℚ) : ℚ :=
  if side = "sell" ∧ price ≤ bestBid then bestBid + tickSize
  else if side = "buy" ∧ price ≥ bestAsk then bestAsk - tickSize
  else price

/-! ## Venue adapters: `OrderInfo` construction -/

/-- The `OrderInfo` record shared by all adapters (`exchanges/base.py`,
mirrored from the spec's data model §3). -/
structure OrderInfo where
  order_id : String
  side : String
  size : ℚ
  price : ℚ
  status : String
  filled_size : ℚ
  remaining_size : ℚ
  deriving DecidableEq, Repr

/-- Embeds the conversion of one Lighter venue order into an `OrderInfo`
inside `LighterClient.get_active_orders` (lighter.py lines 463-487).  The
source computes `size = Decimal(order.initial_base_amount)`, keeps the order
only `if size > 0`, and then builds the record with
`size=Decimal(order.remaining_base_amount)` — the line carrying the source
comment `FIXME: This is wrong. Should be size`. -/
def lighter_order_to_order_info (orderIndex : String) (isAsk : Bool)
    (initialBaseAmount filledBaseAmount remainingBaseAmount price : ℚ)
    (status : String) : Option OrderInfo :=
  let size := initialBaseAmount
  if size > 0 then
    some { order_id := orderIndex
           side := if isAsk then "sell" else "buy"
           size := remainingBaseAmount
           price := price
           status := status
           filled_size := filledBaseAmount
           remaining_size := remainingBaseAmount }
  else none

/-! ## Order-book maintainer: `LighterCustomWebSocketManager` -/

/-- A Python dict keyed by price, modelled as an association list of
(price, size) pairs with pairwise-distinct prices; iteration order is the
dict's insertion order. -/
abbrev Book := List (ℚ × ℚ)

/-- `ob.pop(price, None)`: remove the level at `price`, if present. -/
def obPop (ob : Book) (price : ℚ) : Book :=
  ob.filter (fun l => decide (l.1 ≠ price))

/-- `ob[price] = size`: upsert, keeping insertion order for an existing key and
appending a fresh key. -/
def obSet (ob : Book) (price size : ℚ) : Book :=
  if ob.any (fun l => decide (l.1 = price)) then
    ob.map (fun l => if l.1 = price then (price, size) else l)
  else ob ++ [(price, size)]

/-- A value found in an update entry's `price` or `size` field: either one that
`float()` converts successfully (modelled as an exact rational) or one on which
`float()` raises `ValueError`/`TypeError` (caught by the source and skipped). -/
inductive FieldVal where
  | num (q : ℚ)
  | nonNumeric
  deriving DecidableEq, Repr

/-- One element of the `updates` list handed to `update_order_book`: either not
a dict at all, or a dict whose `price`/`size` fields may be missing. -/
inductive UpdateEntry where
  | notDict
  | entry (price : Option FieldVal) (size : Option FieldVal)
  deriving DecidableEq, Repr

/-- `float()` on a present field, `none` when missing or non-numeric. -/
def parseField : Option FieldVal → Option ℚ
  | some (.num q) => some q
  | _ => none

/-- Embeds the per-entry body of
`LighterCustomWebSocketManager.update_order_book` (lighter_custom_websocket.py
lines 59-87): non-dict entries, entries missing `price` or `size`, entries
whose conversion raises, entries with `price ≤ 0` or `size < 0` are skipped;
`size == 0` deletes the level; otherwise the level is upserted. -/
def apply_book_update (ob : Book) (u : UpdateEntry) : Book :=
  match u with
  | .notDict => ob
  | .entry pf sf =>
    match parseField pf, parseField sf with
    | some price, some size =>
      if price ≤ 0 then ob
      else if size < 0 then ob
      else if size = 0 then obPop ob price
      else obSet ob price size
    | _, _ => ob

/-- The two sides of the maintained order book. -/
structure OrderBook where
  bids : Book
  asks : Book
  deriving DecidableEq, Repr

/-- The `updates` argument of `update_order_book`: either not a list, or a list
of entries. -/
inductive UpdatesArg where
  | notList
  | list (us : List UpdateEntry)
  deriving DecidableEq, Repr

/-- Embeds `LighterCustomWebSocketManager.update_order_book`
(lighter_custom_websocket.py lines 47-87).  A side other than `"bids"`/`"asks"`
or a non-list `updates` argument leaves the book unchanged; otherwise each
entry is applied in order by `apply_book_update`. -/
def update_order_book (book : OrderBook) (side : String) (updates : UpdatesArg) :
    OrderBook :=
  if side ≠ "bids" ∧ side ≠ "asks" then book
  else
    match updates with
    | .notList => book
    | .list us =>
      if side = "bids" then { book with bids := us.foldl apply_book_update book.bids }
      else { book with asks := us.foldl apply_book_update book.asks }

/-! ## Order-book maintainer: offset validation and delta processing -/

/-- The maintainer state relevant to sequencing: the two book sides,
`order_book_offset` (`None` before the first snapshot) and
`order_book_sequence_gap`. -/
structure OBState where
  bids : Book
  asks : Book
  offset : Option ℤ
  gap : Bool
  deriving DecidableEq, Repr

/-- Embeds `LighterCustomWebSocketManager.validate_order_book_offset`
(lighter_custom_websocket.py lines 89-111) as a state transformer returning
the method's boolean result together with the updated state.  A first offset is
always accepted; `new = current + 1` advances the offset and clears the gap
flag; `new > current + 1` sets the gap flag and returns `False`; `new ≤
current` returns `True` without touching the state. -/
def validate_order_book_offset (s : OBState) (newOffset : ℤ) : Bool × OBState :=
  match s.offset with
  | none => (true, { s with offset := some newOffset })
  | some cur =>
    if newOffset = cur + 1 then
      (true, { s with offset := some newOffset, gap := false })
    else if newOffset > cur + 1 then
      (false, { s with gap := true })
    else (true, s)

/-- `max(self.order_book["bids"].keys())` over a non-empty side. -/
def maxKey (l : ℚ) (ls : Book) : ℚ := ls.foldl (fun acc p => max acc p.1) l

/-- `min(self.order_book["asks"].keys())` over a non-empty side. -/
def minKey (l : ℚ) (ls : Book) : ℚ := ls.foldl (fun acc p => min acc p.1) l

/-- Embeds `LighterCustomWebSocketManager.validate_order_book_integrity`
(lighter_custom_websocket.py lines 134-153): an empty side makes the book
valid; otherwise the best bid must be strictly below the best ask. -/
def validate_order_book_integrity (s : OBState) : Bool :=
  match s.bids, s.asks with
  | [], _ => true
  | _, [] => true
  | b :: bs, a :: as_ =>
    decide (maxKey b.1 bs < minKey a.1 as_)

/-- What the message loop does with one `update/order_book` delta. -/
inductive DeltaOutcome where
  /-- The delta's levels were applied and the loop continues live. -/
  | applied
  /-- The delta was applied but the integrity check failed afterwards: the
  loop breaks out to obtain a fresh snapshot. -/
  | appliedThenResync
  /-- A sequence gap: the loop breaks out to obtain a fresh snapshot without
  applying the delta. -/
  | resync
  /-- The delta was skipped without applying (the dead `continue` branch). -/
  | dropped
  deriving DecidableEq, Repr

/-- Embeds the `update/order_book` branch of
`LighterCustomWebSocketManager.connect` (lighter_custom_websocket.py lines
322-364) for a structurally complete delta carrying `newOffset`, `bidUpdates`
and `askUpdates`: validate the offset (breaking out for a fresh snapshot on a
gap), apply both sides' updates, then check integrity (breaking out on
violation). -/
def process_order_book_update (s : OBState) (newOffset : ℤ)
    (bidUpdates askUpdates : List UpdateEntry) : OBState × DeltaOutcome :=
  let (ok, s1) := validate_order_book_offset s newOffset
  if ok then
    let s2 := { s1 with bids := bidUpdates.foldl apply_book_update s1.bids,
                        asks := askUpdates.foldl apply_book_update s1.asks }
    if validate_order_book_integrity s2 then (s2, .applied)
    else (s2, .appliedThenResync)
  else
    if s1.gap then (s1, .resync) else (s1, .dropped)

/-! ## Order-book maintainer: best levels and pruning -/

/-- Python tuple comparison `(p, s) < (q, t)`: lexicographic on the pair. -/
def tupleLt (a b : ℚ × ℚ) : Bool :=
  decide (a.1 < b.1) || (decide (a.1 = b.1) && decide (a.2 < b.2))

/-- The reversed tuple comparison, used to express Python's `min` and
ascending `sorted` through the same folds as `max` and descending `sorted`. -/
def tupleGt (a b : ℚ × ℚ) : Bool := tupleLt b a

/-- The size filter of `get_best_levels` (lighter_custom_websocket.py lines
181-186): a level is kept when `size * price ≥ 40000`. -/
def qualifies (l : ℚ × ℚ) : Bool := decide (l.2 * l.1 ≥ 40000)

/-- The fold underlying Python's `max`/`min` over a list of tuples: scan the
tail, replacing the current best whenever the comparison prefers the next
element (so the first optimum is kept on ties). -/
def pyBestAux (cmp : ℚ × ℚ → ℚ × ℚ → Bool) (b : ℚ × ℚ) :
    List (ℚ × ℚ) → ℚ × ℚ
  | [] => b
  | x :: xs => pyBestAux cmp (if cmp b x then x else b) xs

/-- Python's `max(l)` (with `cmp := tupleLt`) or `min(l)` (with
`cmp := tupleGt`); `none` on an empty list. -/
def pyBest (cmp : ℚ × ℚ → ℚ × ℚ → Bool) : List (ℚ × ℚ) → Option (ℚ × ℚ)
  | [] => none
  | x :: xs => some (pyBestAux cmp x xs)

/-- Embeds the bid half of `LighterCustomWebSocketManager.get_best_levels`
(lighter_custom_websocket.py lines 177-195): `max` over the levels with
notional at least 40000, `(None, None)` when no level qualifies. -/
def get_best_bid (bids : Book) : Option (ℚ × ℚ) :=
  pyBest tupleLt (bids.filter qualifies)

/-- Embeds the ask half of `get_best_levels`: `min` over the qualifying
levels. -/
def get_best_ask (asks : Book) : Option (ℚ × ℚ) :=
  pyBest tupleGt (asks.filter qualifies)

/-- Insertion step of Python's `sorted`: place `x` before the first element
the comparison ranks below it.  With `cmp := tupleLt` this realizes
`sorted(items, reverse=True)`; with `cmp := tupleGt`, `sorted(items)`. -/
def insertByLex (cmp : ℚ × ℚ → ℚ × ℚ → Bool) (x : ℚ × ℚ) :
    List (ℚ × ℚ) → List (ℚ × ℚ)
  | [] => [x]
  | y :: ys => if cmp y x then x :: y :: ys else y :: insertByLex cmp x ys

/-- Insertion sort by the given comparison. -/
def sortByLex (cmp : ℚ × ℚ → ℚ × ℚ → Bool) (l : List (ℚ × ℚ)) : List (ℚ × ℚ) :=
  l.foldr (insertByLex cmp) []

/-- Embeds the bid half of
`LighterCustomWebSocketManager.cleanup_old_order_book_levels`
(lighter_custom_websocket.py lines 197-218): when a side holds more than 100
levels, keep only the 100 highest-priced bids (rebuilding the dict in
descending sorted order). -/
def cleanup_bids (bids : Book) : Book :=
  if bids.length > 100 then (sortByLex tupleLt bids).take 100 else bids

/-- Embeds the ask half of `cleanup_old_order_book_levels`: keep only the 100
lowest-priced asks. -/
def cleanup_asks (asks : Book) : Book :=
  if asks.length > 100 then (sortByLex tupleGt asks).take 100 else asks

/-- 100 dust bid levels at prices 101 down to 2, size 1 each: every notional
is at most 101, far below the 40000 qualification threshold. -/
def exampleDust : Book :=
  (List.range 100).map (fun (i : ℕ) => ((101 : ℚ) - (i : ℚ), (1 : ℚ)))

/-- A 101-level bid side: the 100 dust levels above a single liquid level
(1, 50000); already in descending price order. -/
def exampleBids : Book := exampleDust ++ [(1, 50000)]

/-! ## C1: the AwaitingFill-timeout re-wait condition -/

/-- C1 counterexample.  The claim says the engine keeps waiting exactly while
the order is OPEN and NOT stale, with `stale(buy, p_new, p_old) := p_new ≤
p_old`.  At direction = buy, p_new = 99, p_old = 100, status = OPEN, the stale
predicate is true, so the claim demands an immediate transition to Canceling —
yet the source's loop guard is true and the engine re-sleeps.  The claim's
guard (OPEN ∧ ¬stale) evaluates to false where the code's guard is true. -/
theorem c1_stale_wait_counterexample :
    awaiting_fill_guard "buy" 99 100 "OPEN" = true ∧
    (decide (("OPEN" : String) = "OPEN") && !staleSpec "buy" 99 100) = false := by
  exact ⟨by decide, by decide⟩

/-- C1 amended: the engine keeps re-sleeping exactly while the order's status
is OPEN and the stale predicate (`p_new ≤ p_old` for buy, `p_new ≥ p_old` for
sell) IS true; as soon as that predicate becomes false, or the status leaves
OPEN, it proceeds to cancel the order.  (The spec inverted the predicate.) -/
theorem c1_stale_wait_amended (pn po : ℚ) (st : String) :
    awaiting_fill_guard "buy" pn po st = (staleSpec "buy" pn po && decide (st = "OPEN")) ∧
    awaiting_fill_guard "sell" pn po st = (staleSpec "sell" pn po && decide (st = "OPEN")) := by
  exact ⟨rfl, rfl⟩

/-! ## C4: partial-fill close order after cancelling a stale open -/

/-- C4 counterexample.  With boost mode enabled, close side sell, take-profit
1%, original fill price 100 and recorded filled amount 0.3, the engine places
the close order at price 100 — not at `100 · (1 + 1/100) = 101` as the claim
requires for every configuration. -/
theorem c4_partial_fill_counterexample :
    partial_fill_close true "sell" 1 100 (3/10) = some (3/10, 100) ∧
    (100 : ℚ) ≠ 100 * (1 + 1 / 100) := by
  refine ⟨by norm_num [partial_fill_close], by norm_num⟩

/-- C4 amended: after cancelling a stale open order with recorded filled
amount > 0, the engine places exactly one close order sized to that filled
amount; with boost mode off its price is `filled_price · (1 ± take_profit/100)`
by close side, and with boost mode on it is the original attempt's
`filled_price` itself.  In both cases the price derives from the original
attempt's fill price, never from the re-evaluated market BBO. -/
theorem c4_partial_fill_amended (boostMode : Bool) (closeSide : String)
    (tp fp amt : ℚ) (h : amt > 0) :
    partial_fill_close boostMode closeSide tp fp amt =
      some (amt,
        if boostMode then fp
        else if closeSide = "sell" then fp * (1 + tp / 100)
        else fp * (1 - tp / 100)) := by
  unfold partial_fill_close
  rw [if_pos h]
  cases boostMode <;> simp

/-- C4 witness: at boost mode off, close side sell, take-profit 1%, fill price
100, filled amount 0.3 the amended theorem yields a close order of size 0.3 at
price 101. -/
theorem c4_partial_fill_witness :
    partial_fill_close false "sell" 1 100 (3/10) = some (3/10, 101) := by
  rw [c4_partial_fill_amended false "sell" 1 100 (3/10) (by norm_num)]
  norm_num

/-! ## C5: the cool-down tiers of `_calculate_wait_time` -/

/-- C5: the wait returned by `_calculate_wait_time` is forced to 0 whenever
the active close count strictly decreased since the previous tick; with the
count at or above `max_orders` the wait is the fixed 1 second; and below the
cap the cool-down is `wait_time/4` for ratio < 1/6, `wait_time/2` for ratio <
1/3, `wait_time` for ratio < 2/3 and `2·wait_time` for ratio < 1. -/
theorem c5_wait_time_tiers (n last m : ℕ) (wt lastOpen now : ℚ) :
    (n < last → (calculate_wait_time n last m wt lastOpen now).1 = 0) ∧
    (last ≤ n → m ≤ n → (calculate_wait_time n last m wt lastOpen now).1 = 1) ∧
    (n < m →
      cool_down_time n m wt =
        (if (n : ℚ) / (m : ℚ) < 1 / 6 then wt / 4
         else if (n : ℚ) / (m : ℚ) < 1 / 3 then wt / 2
         else if (n : ℚ) / (m : ℚ) < 2 / 3 then wt
         else 2 * wt)) := by
  refine ⟨fun h => ?_, fun h1 h2 => ?_, fun h => ?_⟩
  · simp only [calculate_wait_time]
    rw [if_pos h]
  · simp only [calculate_wait_time]
    rw [if_neg (by omega), if_pos h2]
  · unfold cool_down_time
    split_ifs <;> first | rfl | linarith

/-- C5 witness: a decrease (1 < 2) forces wait 0; at the cap (7 ≥ 6) the wait
is 1 second; and at ratio 1/6 with wait_time 60 the cool-down is 60/2 = 30. -/
theorem c5_wait_time_tiers_witness :
    (calculate_wait_time 1 2 6 60 0 100).1 = 0 ∧
    (calculate_wait_time 7 3 6 60 0 100).1 = 1 ∧
    cool_down_time 1 6 60 = 30 := by
  refine ⟨(c5_wait_time_tiers 1 2 6 60 0 100).1 (by norm_num),
          (c5_wait_time_tiers 7 3 6 60 0 100).2.1 (by norm_num) (by norm_num), ?_⟩
  rw [(c5_wait_time_tiers 1 3 6 60 0 100).2.2 (by norm_num)]
  rw [if_neg (by norm_num), if_pos (by norm_num)]
  norm_num

/-! ## C9: first open after a restart with rediscovered close orders -/

/-- C9 counterexample.  With one rediscovered close order and `max_orders = 1`
(count at the cap), `last_open_order_time = 0`, `wait_time = 450`, current time
1000, the calculation returns wait 1 but leaves `last_open_order_time` at 0
instead of setting it to the current time, contradicting the claim's "sets
last_open_order_time to the current time". -/
theorem c9_restart_cooldown_counterexample :
    calculate_wait_time 1 0 1 450 0 1000 = (1, 1, 0) ∧ (0 : ℚ) ≠ 1000 := by
  exact ⟨by decide, by norm_num⟩

/-- C9 amended: if no open order has been placed in this process
(`last_open_order_time = 0`), at least one active close order exists, the
count has not decreased and is still below `max_orders`, and `wait_time` is
nonnegative, then the calculation sets `last_open_order_time` to the current
time and returns wait 1, deferring the first new open by a full cool-down.
(At or above `max_orders` the wait is 1 but the timestamp is left untouched.) -/
theorem c9_restart_cooldown_amended (n last m : ℕ) (wt now : ℚ)
    (hlast : last ≤ n) (hn : 1 ≤ n) (hm : n < m) (hwt : 0 ≤ wt) :
    calculate_wait_time n last m wt 0 now = (1, n, now) := by
  have hcd : 0 ≤ cool_down_time n m wt := by
    unfold cool_down_time
    split_ifs <;> linarith
  have hcond : True ∧ 0 < n := ⟨trivial, by omega⟩
  simp only [calculate_wait_time]
  rw [if_neg (by omega), if_neg (by omega), if_pos hcond, if_neg (by linarith)]

/-- C9 witness: with 2 rediscovered close orders, `max_orders = 5`,
`wait_time = 450` and current time 777, the calculation returns wait 1 and
records 777 as `last_open_order_time`. -/
theorem c9_restart_cooldown_witness :
    calculate_wait_time 2 1 5 450 0 777 = (1, 2, 777) :=
  c9_restart_cooldown_amended 2 1 5 450 777 (by norm_num) (by norm_num)
    (by norm_num) (by norm_num)

/-! ## C2: the periodic position-mismatch check -/

/-- C2 counterexample.  With a signed position of −5 (as Lighter's
`get_account_positions` returns it), one active close order of size 5 and
quantity 1, the source flags a mismatch, but the claim's condition
`| |position| − Σ close.size | > 2·quantity` is `|5 − 5| = 0 > 2`, i.e.,
false: the engine does not take the absolute value of the position. -/
theorem c2_mismatch_counterexample :
    (log_status_check (-5) [5] 1 false "lighter" "eth").1 = true ∧
    ¬ (|(|(-5 : ℚ)|) - 5| > 2 * 1) := by
  constructor
  · norm_num [log_status_check, position_mismatch]
  · norm_num

/-- C2 amended: the periodic status check flags a mismatch exactly when
`|position − Σ close.size| > 2·quantity`, with the position taken exactly as
the adapter returns it (signed for Lighter, already absolute for GRVT), and on
mismatch it emits a notification containing "Position mismatch" and sets
`shutdown_requested`. -/
theorem c2_mismatch_amended (pos q : ℚ) (closeSizes : List ℚ) (sd : Bool)
    (exch tick : String) :
    ((log_status_check pos closeSizes q sd exch tick).1 = true ↔
      |pos - closeSizes.sum| > 2 * q) ∧
    ((log_status_check pos closeSizes q sd exch tick).1 = true →
      (log_status_check pos closeSizes q sd exch tick).2.1 = true ∧
      ∃ pre post,
        (log_status_check pos closeSizes q sd exch tick).2.2 =
          some (pre ++ "Position mismatch" ++ post)) := by
  have hsplit : ("Position mismatch detected\n" : String) =
      "Position mismatch" ++ " detected\n" := rfl
  by_cases h : |pos - closeSizes.sum| > 2 * q
  · refine ⟨by simp [log_status_check, position_mismatch, h], fun h1 => ?_⟩
    refine ⟨by simp [log_status_check, position_mismatch, h], ?_⟩
    refine ⟨"\n\nERROR: [" ++ exch ++ "_" ++ tick ++ "] ", ?_, ?_⟩
    · exact " detected\n" ++
        ("###### ERROR ###### ERROR ###### ERROR ###### ERROR #####\n" ++
         ("Please manually rebalance your position and take-profit orders\n" ++
          ("请手动平衡当前仓位和正在关闭的仓位\n" ++
           (("current position: " ++ toString pos ++ " | active closing amount: " ++
             toString closeSizes.sum ++ " | " ++ "Order quantity: " ++
             toString closeSizes.length ++ "\n") ++
            "###### ERROR ###### ERROR ###### ERROR ###### ERROR #####\n"))))
    · simp only [log_status_check, position_mismatch, h, decide_True, if_true,
        decide_eq_true_eq, if_pos h]
      simp only [mismatch_message, mismatch_message_parts, String.join, List.foldl,
        hsplit, String.empty_append, String.append_assoc]
  · constructor
    · simp [log_status_check, position_mismatch, h]
    · intro h1
      exfalso
      simp [log_status_check, position_mismatch, h] at h1

/-- C2 witness: the spec's S5 numbers (position 5, Σ close.size 2, quantity 1)
trigger the mismatch flag and request shutdown. -/
theorem c2_mismatch_witness :
    (log_status_check 5 [2] 1 false "grvt" "eth").1 = true ∧
    (log_status_check 5 [2] 1 false "grvt" "eth").2.1 = true := by
  have h := c2_mismatch_amended 5 1 [2] false "grvt" "eth"
  have h1 : (log_status_check 5 [2] 1 false "grvt" "eth").1 = true := by
    rw [h.1]
    norm_num
  exact ⟨h1, (h.2 h1).1⟩

/-! ## C6: maker-price adjustment in `place_close_order` -/

/-- C6 counterexample.  For the Lighter adapter with side sell, requested
price 100, best bid 100, best ask 101 and tick 1, the claim requires the
submitted price `best_bid + tick = 101` (rounded to tick); Lighter submits the
requested price 100 unchanged. -/
theorem c6_close_price_counterexample :
    lighter_close_order_price "sell" 100 100 101 1 = 100 ∧
    round_to_tick (makerAdjustSpec "sell" 100 100 101 1) 1 = 101 ∧
    (100 : ℚ) ≠ 101 := by
  refine ⟨rfl, ?_, by norm_num⟩
  have h1 : makerAdjustSpec "sell" 100 100 101 1 = 101 := by
    unfold makerAdjustSpec
    rw [if_pos ⟨rfl, by norm_num⟩]
    norm_num
  rw [h1]
  unfold round_to_tick
  norm_num [round_eq]

/-- C6 amended: the GRVT adapter's `place_close_order` adjusts the requested
price exactly as the claim states (sell at or below best bid → `best_bid +
tick`; buy at or above best ask → `best_ask − tick`; else unchanged) and
rounds the result to the tick size; the Lighter adapter's `place_close_order`
performs no such adjustment and submits the requested price unchanged. -/
theorem c6_close_price_amended (side : String) (price bb ba tick : ℚ) :
    grvt_close_order_price side price bb ba tick =
      round_to_tick (makerAdjustSpec side price bb ba tick) tick ∧
    lighter_close_order_price side price bb ba tick = price :=
  ⟨rfl, rfl⟩

/-! ## C7: the `OrderInfo` size invariant -/

/-- C7 failing input.  A Lighter venue order with `initial_base_amount = 2`,
`filled_base_amount = 1`, `remaining_base_amount = 1` (a half-filled order) is
mapped by `get_active_orders` to an `OrderInfo` with `size = 1` (the
`remaining_base_amount`, at the line marked `FIXME: This is wrong. Should be
size` in the source), so `filled_size + remaining_size = 2 > 1 = size`,
violating the claimed invariant. -/
theorem c7_order_info_size_violation :
    ∃ oi : OrderInfo,
      lighter_order_to_order_info "7" true 2 1 1 100 "open" = some oi ∧
      ¬ (oi.filled_size + oi.remaining_size ≤ oi.size) := by
  refine ⟨⟨"7", "sell", 1, 100, "open", 1, 1⟩, ?_, by norm_num⟩
  norm_num [lighter_order_to_order_info]

/-! ## C3: sequencing of order-book deltas -/

/-- C3 failing input.  State: offset 5, bids {100: 1}, asks {101: 1}.  A stale
delta with offset 3 (≤ current) and bid level (99, 2) arrives.
`validate_order_book_offset` leaves the offset at 5 and returns `True`
(intending, per its own comment, that out-of-order updates be "just
ignore[d]"), but the caller then falls through its dead `continue` branch and
applies the delta: the bid map changes from {100: 1} to {100: 1, 99: 2},
contradicting the claim that deltas with `offset ≤ current` leave the book
unchanged. -/
theorem c3_stale_delta_applied :
    (process_order_book_update ⟨[(100, 1)], [(101, 1)], some 5, false⟩ 3
        [.entry (some (.num 99)) (some (.num 2))] []).1.bids = [(100, 1), (99, 2)] ∧
    (process_order_book_update ⟨[(100, 1)], [(101, 1)], some 5, false⟩ 3
        [.entry (some (.num 99)) (some (.num 2))] []).1.offset = some 5 ∧
    (process_order_book_update ⟨[(100, 1)], [(101, 1)], some 5, false⟩ 3
        [.entry (some (.num 99)) (some (.num 2))] []).2 = .applied ∧
    ([(100, 1), (99, 2)] : Book) ≠ [(100, 1)] := by
  refine ⟨?_, ?_, ?_, ?_⟩ <;> decide

/-! ## C10: totality and filtering of `update_order_book` -/

/-- C10: `update_order_book` is total and filtering — an unknown side or a
non-list updates argument leaves the book unchanged; entries that are not
dicts, lack a price or size field, fail numeric conversion, have price ≤ 0 or
size < 0 are skipped; a size of exactly 0 deletes the price level (the level
is absent afterwards); and a positive size upserts the level.  Totality (the
"never raises" clause) is witnessed by the embedding being a plain function
into `OrderBook`: every caught conversion error lands in a skip branch. -/
theorem c10_update_order_book_filtering (book : OrderBook) (side : String)
    (u : UpdatesArg) (ob : Book) (pf sf : Option FieldVal) (p s : ℚ) :
    (side ≠ "bids" → side ≠ "asks" → update_order_book book side u = book) ∧
    (update_order_book book side .notList = book) ∧
    (apply_book_update ob .notDict = ob) ∧
    (apply_book_update ob (.entry none sf) = ob) ∧
    (apply_book_update ob (.entry pf none) = ob) ∧
    (apply_book_update ob (.entry (some .nonNumeric) sf) = ob) ∧
    (apply_book_update ob (.entry pf (some .nonNumeric)) = ob) ∧
    (p ≤ 0 → apply_book_update ob (.entry (some (.num p)) (some (.num s))) = ob) ∧
    (0 < p → s < 0 → apply_book_update ob (.entry (some (.num p)) (some (.num s))) = ob) ∧
    (0 < p → apply_book_update ob (.entry (some (.num p)) (some (.num 0))) = obPop ob p) ∧
    (0 < p → ∀ l ∈ apply_book_update ob (.entry (some (.num p)) (some (.num 0))), l.1 ≠ p) ∧
    (0 < p → 0 < s →
      apply_book_update ob (.entry (some (.num p)) (some (.num s))) = obSet ob p s) := by
  have hpop : ∀ hp : 0 < p,
      apply_book_update ob (.entry (some (.num p)) (some (.num 0))) = obPop ob p := by
    intro hp
    simp only [apply_book_update, parseField]
    rw [if_neg (by linarith), if_neg (by norm_num), if_pos trivial]
  refine ⟨fun h1 h2 => ?_, ?_, rfl, ?_, ?_, ?_, ?_, fun hp => ?_, fun hp hs => ?_,
      hpop, fun hp l hl => ?_, fun hp hs => ?_⟩
  · unfold update_order_book
    rw [if_pos ⟨h1, h2⟩]
  · unfold update_order_book
    split <;> rfl
  · rfl
  · rcases pf with _ | fv
    · rfl
    · rcases fv with q | _ <;> rfl
  · rfl
  · rcases pf with _ | fv
    · rfl
    · rcases fv with q | _ <;> rfl
  · simp only [apply_book_update, parseField]
    rw [if_pos hp]
  · simp only [apply_book_update, parseField]
    rw [if_neg (by linarith), if_pos hs]
  · rw [hpop hp] at hl
    exact of_decide_eq_true (List.mem_filter.mp hl).2
  · simp only [apply_book_update, parseField]
    rw [if_neg (by linarith), if_neg (by linarith), if_neg (ne_of_gt hs)]

/-- C10 witness: an unknown side string leaves the book unchanged, a
negative-price entry is skipped, and a zero-size entry deletes the level. -/
theorem c10_update_order_book_filtering_witness :
    update_order_book ⟨[(1, 1)], []⟩ "trades" (.list []) = ⟨[(1, 1)], []⟩ ∧
    apply_book_update [(2, 3)] (.entry (some (.num (-1))) (some (.num 4))) = [(2, 3)] ∧
    apply_book_update [(2, 3)] (.entry (some (.num 2)) (some (.num 0))) = obPop [(2, 3)] 2 := by
  have h := c10_update_order_book_filtering ⟨[(1, 1)], []⟩ "trades" (.list [])
      [(2, 3)] none none (-1) 4
  have h2 := c10_update_order_book_filtering ⟨[(1, 1)], []⟩ "trades" (.list [])
      [(2, 3)] none none 2 4
  exact ⟨h.1 (by decide) (by decide), h.2.2.2.2.2.2.2.1 (by norm_num),
    h2.2.2.2.2.2.2.2.2.2.1 (by norm_num)⟩

/-! ## C8: pruning versus best-level reporting

Order-theoretic facts about Python's lexicographic tuple comparison, then the
behaviour of the `max`/`min` folds and of insertion sort, leading to the
amended preservation statement. -/

theorem tupleLt_true_iff (a b : ℚ × ℚ) :
    tupleLt a b = true ↔ a.1 < b.1 ∨ (a.1 = b.1 ∧ a.2 < b.2) := by
  simp [tupleLt]

theorem tupleLt_false_iff (a b : ℚ × ℚ) :
    tupleLt a b = false ↔ ¬(a.1 < b.1 ∨ (a.1 = b.1 ∧ a.2 < b.2)) := by
  rw [Bool.eq_false_iff]
  exact not_congr (tupleLt_true_iff a b)

theorem tupleLt_asymm (a b : ℚ × ℚ) (h : tupleLt a b = true) :
    tupleLt b a = false := by
  rw [tupleLt_true_iff] at h
  rw [tupleLt_false_iff]
  rintro (h1 | ⟨h1, h2⟩) <;> rcases h with h3 | ⟨h3, h4⟩ <;> linarith

theorem tupleLt_false_trans (a b c : ℚ × ℚ) (h1 : tupleLt a b = false)
    (h2 : tupleLt b c = false) : tupleLt a c = false := by
  rw [tupleLt_false_iff] at h1 h2 ⊢
  push_neg at h1 h2 ⊢
  obtain ⟨h11, h12⟩ := h1
  obtain ⟨h21, h22⟩ := h2
  refine ⟨by linarith, fun he => ?_⟩
  have hb1 : a.1 = b.1 := by linarith
  have hb2 : b.1 = c.1 := by linarith
  have := h12 hb1
  have := h22 hb2
  linarith

theorem tupleLt_false_antisymm (a b : ℚ × ℚ) (h1 : tupleLt a b = false)
    (h2 : tupleLt b a = false) : a = b := by
  rw [tupleLt_false_iff] at h1 h2
  push_neg at h1 h2
  obtain ⟨h11, h12⟩ := h1
  obtain ⟨h21, h22⟩ := h2
  have hfst : a.1 = b.1 := le_antisymm h21 h11
  have hsnd : a.2 = b.2 := le_antisymm (by simpa using h22 hfst.symm)
    (by simpa using h12 hfst)
  exact Prod.ext hfst hsnd

theorem tupleGt_asymm (a b : ℚ × ℚ) (h : tupleGt a b = true) :
    tupleGt b a = false :=
  tupleLt_asymm b a h

theorem tupleGt_false_trans (a b c : ℚ × ℚ) (h1 : tupleGt a b = false)
    (h2 : tupleGt b c = false) : tupleGt a c = false :=
  tupleLt_false_trans c b a h2 h1

theorem tupleGt_false_antisymm (a b : ℚ × ℚ) (h1 : tupleGt a b = false)
    (h2 : tupleGt b a = false) : a = b :=
  tupleLt_false_antisymm a b h2 h1

theorem cmp_irrefl (cmp : ℚ × ℚ → ℚ × ℚ → Bool)
    (hasymm : ∀ a b, cmp a b = true → cmp b a = false) (a : ℚ × ℚ) :
    cmp a a = false := by
  cases h : cmp a a with
  | false => rfl
  | true => have := hasymm a a h; rw [h] at this; exact this

theorem pyBestAux_mem (cmp : ℚ × ℚ → ℚ × ℚ → Bool) :
    ∀ (xs : List (ℚ × ℚ)) (b : ℚ × ℚ), pyBestAux cmp b xs ∈ b :: xs := by
  intro xs
  induction xs with
  | nil => intro b; simp [pyBestAux]
  | cons x xs ih =>
    intro b
    simp only [pyBestAux]
    have h := ih (if cmp b x then x else b)
    rcases List.mem_cons.mp h with h1 | h1
    · rw [h1]
      split <;> simp
    · simp [List.mem_cons.mpr (Or.inr h1)]

theorem pyBestAux_best (cmp : ℚ × ℚ → ℚ × ℚ → Bool)
    (hasymm : ∀ a b, cmp a b = true → cmp b a = false)
    (htrans : ∀ a b c, cmp a b = false → cmp b c = false → cmp a c = false) :
    ∀ (xs : List (ℚ × ℚ)) (b y : ℚ × ℚ), y ∈ b :: xs →
      cmp (pyBestAux cmp b xs) y = false := by
  intro xs
  induction xs with
  | nil =>
    intro b y hy
    rw [List.mem_singleton.mp hy]
    simp only [pyBestAux]
    exact cmp_irrefl cmp hasymm b
  | cons x xs ih =>
    intro b y hy
    simp only [pyBestAux]
    have hb2 : cmp (pyBestAux cmp (if cmp b x then x else b) xs)
        (if cmp b x then x else b) = false :=
      ih (if cmp b x then x else b) _ (List.mem_cons_self _ _)
    have hb : cmp (pyBestAux cmp (if cmp b x then x else b) xs) b = false := by
      by_cases hcx : cmp b x = true
      · rw [if_pos hcx] at hb2 ⊢
        exact htrans _ _ _ hb2 (hasymm b x hcx)
      · rw [if_neg hcx] at hb2 ⊢
        exact hb2
    have hx : cmp (pyBestAux cmp (if cmp b x then x else b) xs) x = false := by
      by_cases hcx : cmp b x = true
      · rw [if_pos hcx] at hb2 ⊢
        exact hb2
      · rw [if_neg hcx] at hb2 ⊢
        exact htrans _ _ _ hb2 (by simpa using hcx)
    rcases List.mem_cons.mp hy with h1 | h1
    · rw [h1]; exact hb
    rcases List.mem_cons.mp h1 with h2 | h2
    · rw [h2]; exact hx
    · exact ih _ y (List.mem_cons.mpr (Or.inr h2))

theorem pyBest_mem_filter (cmp : ℚ × ℚ → ℚ × ℚ → Bool) (m : Book) (b : ℚ × ℚ)
    (h : pyBest cmp (m.filter qualifies) = some b) :
    b ∈ m ∧ qualifies b = true := by
  rcases hf : m.filter qualifies with _ | ⟨x, xs⟩
  · rw [hf] at h
    exact absurd h (by simp [pyBest])
  · rw [hf] at h
    simp only [pyBest, Option.some.injEq] at h
    have hmem : b ∈ x :: xs := h ▸ pyBestAux_mem cmp xs x
    rw [← hf] at hmem
    exact ⟨(List.mem_filter.mp hmem).1, (List.mem_filter.mp hmem).2⟩

theorem pyBest_best_filter (cmp : ℚ × ℚ → ℚ × ℚ → Bool)
    (hasymm : ∀ a b, cmp a b = true → cmp b a = false)
    (htrans : ∀ a b c, cmp a b = false → cmp b c = false → cmp a c = false)
    (m : Book) (b : ℚ × ℚ) (h : pyBest cmp (m.filter qualifies) = some b) :
    ∀ y ∈ m, qualifies y = true → cmp b y = false := by
  intro y hy hqy
  have hyf : y ∈ m.filter qualifies := List.mem_filter.mpr ⟨hy, hqy⟩
  rcases hf : m.filter qualifies with _ | ⟨x, xs⟩
  · rw [hf] at hyf
    exact absurd hyf (by simp)
  · rw [hf] at h hyf
    simp only [pyBest, Option.some.injEq] at h
    rw [← h]
    exact pyBestAux_best cmp hasymm htrans xs x y hyf

theorem pyBest_filter_isSome (cmp : ℚ × ℚ → ℚ × ℚ → Bool) (m : Book)
    (y : ℚ × ℚ) (hy : y ∈ m) (hqy : qualifies y = true) :
    ∃ b, pyBest cmp (m.filter qualifies) = some b := by
  have hyf : y ∈ m.filter qualifies := List.mem_filter.mpr ⟨hy, hqy⟩
  rcases hf : m.filter qualifies with _ | ⟨x, xs⟩
  · rw [hf] at hyf
    exact absurd hyf (by simp)
  · exact ⟨pyBestAux cmp x xs, rfl⟩

theorem mem_insertByLex (cmp : ℚ × ℚ → ℚ × ℚ → Bool) (x a : ℚ × ℚ) :
    ∀ l : List (ℚ × ℚ), a ∈ insertByLex cmp x l ↔ a = x ∨ a ∈ l := by
  intro l
  induction l with
  | nil => simp [insertByLex]
  | cons y ys ih =>
    simp only [insertByLex]
    split
    · simp [List.mem_cons]
    · simp only [List.mem_cons, ih]
      tauto

theorem mem_sortByLex (cmp : ℚ × ℚ → ℚ × ℚ → Bool) (a : ℚ × ℚ) :
    ∀ l : List (ℚ × ℚ), a ∈ sortByLex cmp l ↔ a ∈ l := by
  intro l
  induction l with
  | nil => simp [sortByLex]
  | cons y ys ih =>
    show a ∈ insertByLex cmp y (sortByLex cmp ys) ↔ _
    rw [mem_insertByLex, ih]
    simp [List.mem_cons]

theorem pairwise_insertByLex (cmp : ℚ × ℚ → ℚ × ℚ → Bool)
    (hasymm : ∀ a b, cmp a b = true → cmp b a = false)
    (htrans : ∀ a b c, cmp a b = false → cmp b c = false → cmp a c = false)
    (x : ℚ × ℚ) :
    ∀ l : List (ℚ × ℚ), l.Pairwise (fun a b => cmp a b = false) →
      (insertByLex cmp x l).Pairwise (fun a b => cmp a b = false) := by
  intro l
  induction l with
  | nil =>
    intro _
    simp [insertByLex]
  | cons y ys ih =>
    intro hp
    rw [List.pairwise_cons] at hp
    obtain ⟨hy, hys⟩ := hp
    simp only [insertByLex]
    by_cases hcx : cmp y x = true
    · rw [if_pos hcx, List.pairwise_cons]
      refine ⟨fun z hz => ?_, ?_⟩
      · rcases List.mem_cons.mp hz with h1 | h1
        · rw [h1]; exact hasymm y x hcx
        · exact htrans x y z (hasymm y x hcx) (hy z h1)
      · rw [List.pairwise_cons]
        exact ⟨hy, hys⟩
    · rw [if_neg hcx, List.pairwise_cons]
      refine ⟨fun z hz => ?_, ih hys⟩
      rcases (mem_insertByLex cmp x z ys).mp hz with h1 | h1
      · rw [h1]
        simpa using hcx
      · exact hy z h1

theorem pairwise_sortByLex (cmp : ℚ × ℚ → ℚ × ℚ → Bool)
    (hasymm : ∀ a b, cmp a b = true → cmp b a = false)
    (htrans : ∀ a b c, cmp a b = false → cmp b c = false → cmp a c = false)
    (l : List (ℚ × ℚ)) :
    (sortByLex cmp l).Pairwise (fun a b => cmp a b = false) := by
  induction l with
  | nil => simp [sortByLex]
  | cons y ys ih => exact pairwise_insertByLex cmp hasymm htrans y _ ih

theorem pyBest_take_sortByLex (cmp : ℚ × ℚ → ℚ × ℚ → Bool)
    (hasymm : ∀ a b, cmp a b = true → cmp b a = false)
    (htrans : ∀ a b c, cmp a b = false → cmp b c = false → cmp a c = false)
    (hanti : ∀ a b, cmp a b = false → cmp b a = false → a = b)
    (m : Book) (k : ℕ)
    (hq : ∃ l ∈ (sortByLex cmp m).take k, qualifies l = true) :
    pyBest cmp (((sortByLex cmp m).take k).filter qualifies) =
      pyBest cmp (m.filter qualifies) := by
  obtain ⟨q, hqT, hqual⟩ := hq
  have hTsub : ∀ x ∈ (sortByLex cmp m).take k, x ∈ m := fun x hx =>
    (mem_sortByLex cmp x m).mp (List.take_subset k _ hx)
  obtain ⟨b, hb⟩ := pyBest_filter_isSome cmp m q (hTsub q hqT) hqual
  obtain ⟨hbm, hbq⟩ := pyBest_mem_filter cmp m b hb
  have hbbest := pyBest_best_filter cmp hasymm htrans m b hb
  have hbT : b ∈ (sortByLex cmp m).take k := by
    have hbsort : b ∈ (sortByLex cmp m).take k ++ (sortByLex cmp m).drop k := by
      rw [List.take_append_drop]
      exact (mem_sortByLex cmp b m).mpr hbm
    rcases List.mem_append.mp hbsort with h1 | h1
    · exact h1
    · have hs := pairwise_sortByLex cmp hasymm htrans m
      rw [← List.take_append_drop k (sortByLex cmp m)] at hs
      have hcross := (List.pairwise_append.mp hs).2.2 q hqT b h1
      have hqb : q = b := hanti q b hcross (hbbest q (hTsub q hqT) hqual)
      rw [← hqb]
      exact hqT
  obtain ⟨b2, hb2⟩ := pyBest_filter_isSome cmp ((sortByLex cmp m).take k) b hbT hbq
  obtain ⟨hb2T, hb2q⟩ := pyBest_mem_filter cmp _ b2 hb2
  have hb2best := pyBest_best_filter cmp hasymm htrans _ b2 hb2
  have heq : b2 = b :=
    hanti b2 b (hb2best b hbT hbq) (hbbest b2 (hTsub b2 hb2T) hb2q)
  rw [hb, hb2, heq]

theorem exampleDust_not_qualifies : ∀ x ∈ exampleDust, qualifies x = false := by
  intro x hx
  obtain ⟨i, hi, rfl⟩ := List.mem_map.mp hx
  rw [List.mem_range] at hi
  simp only [qualifies, decide_eq_false_iff_not]
  intro hge
  have hi0 : (0 : ℚ) ≤ (i : ℚ) := by positivity
  have : (1 : ℚ) * (101 - (i : ℚ)) ≤ 101 := by linarith
  linarith [ge_iff_le.mp hge]

theorem exampleBids_sorted :
    exampleBids.Pairwise (fun a b => tupleLt b a = true) := by
  unfold exampleBids exampleDust
  rw [List.pairwise_append]
  refine ⟨?_, by simp, ?_⟩
  · rw [List.pairwise_map]
    refine (List.pairwise_lt_range 100).imp ?_
    intro i j hij
    rw [tupleLt_true_iff]
    left
    have : (i : ℚ) < (j : ℚ) := by exact_mod_cast hij
    show (101 : ℚ) - (j : ℚ) < 101 - (i : ℚ)
    linarith
  · intro a ha b hb
    obtain ⟨i, hi, rfl⟩ := List.mem_map.mp ha
    rw [List.mem_range] at hi
    rw [List.mem_singleton] at hb
    rw [hb, tupleLt_true_iff]
    left
    have : (i : ℚ) ≤ 99 := by exact_mod_cast Nat.le_of_lt_succ hi
    show (1 : ℚ) < 101 - (i : ℚ)
    linarith

theorem sortByLex_of_strict (cmp : ℚ × ℚ → ℚ × ℚ → Bool) :
    ∀ l : List (ℚ × ℚ), l.Pairwise (fun a b => cmp b a = true) →
      sortByLex cmp l = l := by
  intro l
  induction l with
  | nil => intro _; rfl
  | cons x xs ih =>
    intro hp
    rw [List.pairwise_cons] at hp
    obtain ⟨hx, hxs⟩ := hp
    show insertByLex cmp x (sortByLex cmp xs) = x :: xs
    rw [ih hxs]
    cases xs with
    | nil => rfl
    | cons y ys =>
      show insertByLex cmp x (y :: ys) = x :: y :: ys
      simp only [insertByLex]
      rw [if_pos (hx y (List.mem_cons_self _ _))]

/-- C8 counterexample.  On `exampleBids` (101 levels: 100 dust levels above a
single qualifying level), pruning to the best 100 discards the only level with
notional ≥ 40000, so the pruned book reports no best bid while the unpruned
book reports (1, 50000): pruning does affect `best_*` reporting. -/
theorem c8_cleanup_best_counterexample :
    get_best_bid (cleanup_bids exampleBids) = none ∧
    get_best_bid exampleBids = some (1, 50000) ∧
    get_best_bid (cleanup_bids exampleBids) ≠ get_best_bid exampleBids := by
  have hclean : cleanup_bids exampleBids = exampleDust := by
    unfold cleanup_bids
    rw [if_pos (by simp [exampleBids, exampleDust]),
      sortByLex_of_strict tupleLt exampleBids exampleBids_sorted]
    show (exampleDust ++ [(1, 50000)]).take 100 = exampleDust
    have hlen : exampleDust.length = 100 := by simp [exampleDust]
    rw [← hlen, List.take_left]
  have hfilter_dust : exampleDust.filter qualifies = [] :=
    List.filter_eq_nil_iff.mpr (fun a ha => by simp [exampleDust_not_qualifies a ha])
  have hq1 : qualifies ((1 : ℚ), (50000 : ℚ)) = true := by
    simp only [qualifies, decide_eq_true_eq]
    norm_num
  have hfilter_all : exampleBids.filter qualifies = [(1, 50000)] := by
    unfold exampleBids
    rw [List.filter_append, hfilter_dust]
    simp [hq1]
  have h1 : get_best_bid (cleanup_bids exampleBids) = none := by
    rw [hclean]
    unfold get_best_bid
    rw [hfilter_dust]
    rfl
  have h2 : get_best_bid exampleBids = some (1, 50000) := by
    unfold get_best_bid
    rw [hfilter_all]
    rfl
  exact ⟨h1, h2, by rw [h1, h2]; simp⟩

/-- C8 amended: pruning a side to its best 100 levels preserves the reported
best level whenever at least one qualifying level (price × size ≥ 40000)
survives the pruning; when every qualifying level is pruned away (possible
only on a side deeper than 100 levels whose top 100 are all dust), the pruned
side reports no best level although the unpruned side may. -/
theorem c8_cleanup_best_amended (bids asks : Book)
    (hb : ∃ l ∈ cleanup_bids bids, qualifies l = true)
    (ha : ∃ l ∈ cleanup_asks asks, qualifies l = true) :
    get_best_bid (cleanup_bids bids) = get_best_bid bids ∧
    get_best_ask (cleanup_asks asks) = get_best_ask asks := by
  constructor
  · unfold cleanup_bids at hb ⊢
    by_cases h : bids.length > 100
    · rw [if_pos h] at hb ⊢
      exact pyBest_take_sortByLex tupleLt tupleLt_asymm tupleLt_false_trans
        tupleLt_false_antisymm bids 100 hb
    · rw [if_neg h]
  · unfold cleanup_asks at ha ⊢
    by_cases h : asks.length > 100
    · rw [if_pos h] at ha ⊢
      exact pyBest_take_sortByLex tupleGt tupleGt_asymm tupleGt_false_trans
        tupleGt_false_antisymm asks 100 ha
    · rw [if_neg h]

/-- C8 witness: on a one-level book per side, with the bid (100, 500) and the
ask (101, 500) both qualifying, pruning changes nothing and the best levels
agree. -/
theorem c8_cleanup_best_witness :
    get_best_bid (cleanup_bids [((100 : ℚ), (500 : ℚ))]) =
      get_best_bid [((100 : ℚ), (500 : ℚ))] ∧
    get_best_ask (cleanup_asks [((101 : ℚ), (500 : ℚ))]) =
      get_best_ask [((101 : ℚ), (500 : ℚ))] :=
  c8_cleanup_best_amended [((100 : ℚ), (500 : ℚ))] [((101 : ℚ), (500 : ℚ))]
    ⟨(100, 500), by simp [cleanup_bids],
      by simp only [qualifies, decide_eq_true_eq]; norm_num⟩
    ⟨(101, 500), by simp [cleanup_asks],
      by simp only [qualifies, decide_eq_true_eq]; norm_num⟩

end PerpDex
